import Mathlib

/-!
Verification of `TermTaskspacePose.hpp` (control-toolbox, ct_rbd): a cost-function
term penalising the deviation of a robot end-effector task-space pose from a
desired reference pose.  The C++ header is shallowly embedded below: scalars
become `ℝ`, Eigen fixed-size vectors and matrices become functions out of `Fin`,
Eigen quaternions become a four-component structure, and the configuration
reader (whose implementation lives outside the verified sources) is modelled as
a record of optional fields.
-/

noncomputable section

namespace CT

open scoped Matrix

/-- A 3x3 real matrix, embedding `Eigen::Matrix<double, 3, 3>`. -/
abbrev Mat3 := Matrix (Fin 3) (Fin 3) ℝ

/-- A 3-vector, embedding `Eigen::Matrix<double, 3, 1>`. -/
abbrev Vec3 := Fin 3 → ℝ

/-- A quaternion with components `(w, x, y, z)`, embedding `Eigen::Quaternion<double>`. -/
structure Quat where
  w : ℝ
  x : ℝ
  y : ℝ
  z : ℝ

/-- Squared norm `w² + x² + y² + z²` of a quaternion (Eigen `squaredNorm()`). -/
def Quat.normSq (q : Quat) : ℝ := q.w ^ 2 + q.x ^ 2 + q.y ^ 2 + q.z ^ 2

/-- Eigen `Quaternion::normalized()`: every component divided by the norm. -/
def Quat.normalized (q : Quat) : Quat :=
  ⟨q.w / Real.sqrt q.normSq, q.x / Real.sqrt q.normSq,
    q.y / Real.sqrt q.normSq, q.z / Real.sqrt q.normSq⟩

/-- Eigen quaternion product (Hamilton product), embedding `Quaternion::operator*`. -/
def Quat.mul (p q : Quat) : Quat :=
  ⟨p.w * q.w - p.x * q.x - p.y * q.y - p.z * q.z,
    p.w * q.x + p.x * q.w + p.y * q.z - p.z * q.y,
    p.w * q.y - p.x * q.z + p.y * q.w + p.z * q.x,
    p.w * q.z + p.x * q.y - p.y * q.x + p.z * q.w⟩

/-- Eigen `Quaternion::toRotationMatrix()`.  The components are consumed exactly as
given (the formula yields an orthonormal matrix only for unit quaternions); this is
the conversion used by both the explicit-quaternion constructor (after
normalisation) and the configuration loader (without normalisation). -/
def quatToRotationMatrix (q : Quat) : Mat3 :=
  !![1 - (2 * q.y * q.y + 2 * q.z * q.z), 2 * q.x * q.y - 2 * q.w * q.z,
      2 * q.x * q.z + 2 * q.w * q.y;
     2 * q.x * q.y + 2 * q.w * q.z, 1 - (2 * q.x * q.x + 2 * q.z * q.z),
      2 * q.y * q.z - 2 * q.w * q.x;
     2 * q.x * q.z - 2 * q.w * q.y, 2 * q.y * q.z + 2 * q.w * q.x,
      1 - (2 * q.x * q.x + 2 * q.y * q.y)]

/-- Eigen `AngleAxisd(θ, UnitX())` converted to a quaternion:
`(cos(θ/2), sin(θ/2), 0, 0)`. -/
def quatAngleAxisX (θ : ℝ) : Quat := ⟨Real.cos (θ / 2), Real.sin (θ / 2), 0, 0⟩

/-- Eigen `AngleAxisd(θ, UnitY())` converted to a quaternion. -/
def quatAngleAxisY (θ : ℝ) : Quat := ⟨Real.cos (θ / 2), 0, Real.sin (θ / 2), 0⟩

/-- Eigen `AngleAxisd(θ, UnitZ())` converted to a quaternion. -/
def quatAngleAxisZ (θ : ℝ) : Quat := ⟨Real.cos (θ / 2), 0, 0, Real.sin (θ / 2)⟩

/-- The quaternion built by the source expression
`AngleAxisd(e(0), UnitX()) * AngleAxisd(e(1), UnitY()) * AngleAxisd(e(2), UnitZ())`
(left-associated Eigen products, each angle-axis converted to a quaternion). -/
def eulerXyzToQuat (e : Vec3) : Quat :=
  ((quatAngleAxisX (e 0)).mul (quatAngleAxisY (e 1))).mul (quatAngleAxisZ (e 2))

/-- Frobenius norm of a 3x3 matrix: Eigen `MatrixBase::norm()`, the square root of
the sum of squared entries. -/
def frobeniusNorm (M : Mat3) : ℝ := Real.sqrt (∑ i, ∑ j, M i j ^ 2)

/-- The scalar `(vᵀ · Q · v)(0, 0)` computed in the source as
`(xDiff.transpose() * Q_pos * xDiff)(0, 0)`. -/
def quadForm (Q : Mat3) (v : Vec3) : ℝ :=
  (Matrix.row Unit v * Q * Matrix.col Unit v) () ()

/-- The rotation-error cost `Q_rot * ‖w_R_refᵀ · ee_rot − I‖_F` computed by
`evalLocal` (source lines 207-209). -/
def rotationCost (Q_rot : ℝ) (w_R_ref ee_rot : Mat3) : ℝ :=
  Q_rot * frobeniusNorm (w_R_refᵀ * ee_rot - 1)

/-- Modelled from the spec: the structured robot state `tpl::RBDState` (its header is
not among the verified sources).  It carries a base pose (Euler-XYZ orientation plus
position, six scalars), joint positions and joint velocities. -/
structure RBDState (N : ℕ) where
  basePose : Fin 6 → ℝ
  jointPositions : Fin N → ℝ
  jointVelocities : Fin N → ℝ

/-- State dimension as asserted by the source (`2 * (FB * 6 + NJOINTS)` for the
Euler-angle encoding): `2 * (6 + N)` for a floating-base system, `2 * N` otherwise. -/
def stateDim (FB : Bool) (N : ℕ) : ℕ := cond FB (2 * (6 + N)) (2 * N)

/-- Modelled from the spec: `RBDState::fromStateVectorEulerXyz` (implemented outside
the verified sources).  The leading six entries decode to the base pose, the next
`N` entries are the joint positions, and the remaining entries are velocities. -/
def RBDState.fromStateVectorEulerXyz {N : ℕ} (x : Fin (2 * (6 + N)) → ℝ) : RBDState N where
  basePose := fun i => x ⟨i.1, by have := i.isLt; omega⟩
  jointPositions := fun j => x ⟨6 + j.1, by have := j.isLt; omega⟩
  jointVelocities := fun j => x ⟨6 + N + j.1, by have := j.isLt; omega⟩

/-- Modelled from the spec: the fixed-base branch `rbdState.joints() = x` stores the
whole input as the joint state (positions then velocities); the base pose keeps its
default identity value (zero Euler angles, zero position). -/
def RBDState.jointsFromVector {N : ℕ} (x : Fin (2 * N) → ℝ) : RBDState N where
  basePose := fun _ => 0
  jointPositions := fun j => x ⟨j.1, by have := j.isLt; omega⟩
  jointVelocities := fun j => x ⟨N + j.1, by have := j.isLt; omega⟩

/-- The two overloads `setStateFromVector<T>` selected by the floating-base flag:
the floating-base overload calls `fromStateVectorEulerXyz`, the fixed-base overload
assigns the input to the joint state. -/
def setStateFromVector {N : ℕ} : (FB : Bool) → (Fin (stateDim FB N) → ℝ) → RBDState N
  | true, x => RBDState.fromStateVectorEulerXyz x
  | false, x => RBDState.jointsFromVector x

/-- The external forward-kinematics provider (template parameter `KINEMATICS`):
world-frame end-effector position and rotation from an end-effector index, a base
pose and joint positions. -/
structure Kinematics (N : ℕ) where
  getEEPositionInWorld : ℕ → (Fin 6 → ℝ) → (Fin N → ℝ) → Vec3
  getEERotInWorld : ℕ → (Fin 6 → ℝ) → (Fin N → ℝ) → Mat3

/-- The member state of `TermTaskspacePose`: end-effector index, kinematics
provider, position weight matrix, rotation weight scalar, reference position and
reference rotation matrix. -/
structure TermTaskspacePose (N : ℕ) where
  eeInd : ℕ
  kinematics : Kinematics N
  Q_pos : Mat3
  Q_rot : ℝ
  w_p_ref : Vec3
  w_R_ref : Mat3

/-- The quaternion constructor (source lines 43-62): stores the arguments and sets
`w_R_ref = w_q_des.normalized().toRotationMatrix()`.  `K0` is the default-constructed
`KINEMATICS()` member. -/
def mkFromQuaternion {N : ℕ} (K0 : Kinematics N) (eeInd : ℕ) (Qpos : Mat3) (Qrot : ℝ)
    (w_pos_des : Vec3) (w_q_des : Quat) : TermTaskspacePose N :=
  { eeInd := eeInd
    kinematics := K0
    Q_pos := Qpos
    Q_rot := Qrot
    w_p_ref := w_pos_des
    w_R_ref := quatToRotationMatrix w_q_des.normalized }

/-- The Euler-angle constructor (source lines 65-81): delegates to the quaternion
constructor with the quaternion built from the three angle-axis factors. -/
def mkFromEulerXyz {N : ℕ} (K0 : Kinematics N) (eeInd : ℕ) (Qpos : Mat3) (Qrot : ℝ)
    (w_pos_des : Vec3) (eulerXyz : Vec3) : TermTaskspacePose N :=
  mkFromQuaternion K0 eeInd Qpos Qrot w_pos_des (eulerXyzToQuat eulerXyz)

/-- The copy constructor (source lines 91-99): copies every scalar parameter by
value and freshly constructs the kinematics member as `KINEMATICS()` (argument `K0`)
instead of copying it from `arg`. -/
def copyConstruct {N : ℕ} (K0 : Kinematics N) (arg : TermTaskspacePose N) :
    TermTaskspacePose N :=
  { eeInd := arg.eeInd
    kinematics := K0
    Q_pos := arg.Q_pos
    Q_rot := arg.Q_rot
    w_p_ref := arg.w_p_ref
    w_R_ref := arg.w_R_ref }

/-- Deep cloning (source lines 104-107): `new TermTaskspacePose(*this)`. -/
def clone {N : ℕ} (K0 : Kinematics N) (arg : TermTaskspacePose N) : TermTaskspacePose N :=
  copyConstruct K0 arg

/-- The templated `evalLocal` (source lines 182-212): decode the state, query the
kinematics, and combine the quadratic position cost with the Frobenius-norm
rotation cost. -/
def evalLocal {N M : ℕ} (FB : Bool) (term : TermTaskspacePose N)
    (x : Fin (stateDim FB N) → ℝ) (u : Fin M → ℝ) (t : ℝ) : ℝ :=
  let rbdState := setStateFromVector FB x
  let xDiff : Vec3 :=
    term.kinematics.getEEPositionInWorld term.eeInd rbdState.basePose rbdState.jointPositions
      - term.w_p_ref
  let pos_cost : ℝ := quadForm term.Q_pos xDiff
  let ee_rot : Mat3 :=
    term.kinematics.getEERotInWorld term.eeInd rbdState.basePose rbdState.jointPositions
  let rot_cost : ℝ := rotationCost term.Q_rot term.w_R_ref ee_rot
  pos_cost + rot_cost

/-- The virtual `evaluate` entry point (source lines 110-115): delegates to
`evalLocal` instantiated at the class scalar type. -/
def evaluate {N M : ℕ} (FB : Bool) (term : TermTaskspacePose N)
    (x : Fin (stateDim FB N) → ℝ) (u : Fin M → ℝ) (t : ℝ) : ℝ :=
  evalLocal FB term x u t

/-- The overloaded `evaluateCppadCg` entry point (source lines 118-123): delegates
to `evalLocal` instantiated at the differentiable scalar type. -/
def evaluateCppadCg {N M : ℕ} (FB : Bool) (term : TermTaskspacePose N)
    (x : Fin (stateDim FB N) → ℝ) (u : Fin M → ℝ) (t : ℝ) : ℝ :=
  evalLocal FB term x u t

/-- Loading failures raised by `loadConfigFile`: a missing or malformed required
field, or no orientation found after trying both the quaternion and the
Euler-angle fields (the `std::runtime_error` thrown on source line 165). -/
inductive LoadError where
  | missingField : String → LoadError
  | missingOrientation : LoadError
deriving DecidableEq

/-- Modelled from the spec: one named section of the structured configuration
source read through `loadScalarCF` / `loadMatrixCF` (implemented outside the
verified sources; each read may fail).  A field is `none` when absent or
malformed, `some` when present and well-formed. -/
structure ConfigSection where
  eeId : Option ℕ
  Q_rot : Option ℝ
  Q_pos : Option Mat3
  x_des : Option Vec3
  quat_des : Option (Fin 4 → ℝ)
  eulerXyz_des : Option Vec3

/-- `loadConfigFile` (source lines 126-177), acting on the member state `term`.
The four required fields are stored into the members one after the other; then the
quaternion orientation field is attempted first (consumed as-is, without
normalisation), the Euler field second, and if both fail the error of source line
165 is raised.  The returned pair is (member state after the call, error if any):
on failure the members already assigned keep their new values, mirroring the
mutation the C++ object has undergone when the exception leaves the method. -/
def loadConfigFile {N : ℕ} (term : TermTaskspacePose N) (cfg : ConfigSection) :
    TermTaskspacePose N × Option LoadError :=
  match cfg.eeId with
  | none => (term, some (LoadError.missingField "eeId"))
  | some ee =>
    let term1 := { term with eeInd := ee }
    match cfg.Q_rot with
    | none => (term1, some (LoadError.missingField "Q_rot"))
    | some qr =>
      let term2 := { term1 with Q_rot := qr }
      match cfg.Q_pos with
      | none => (term2, some (LoadError.missingField "Q_pos"))
      | some qp =>
        let term3 := { term2 with Q_pos := qp }
        match cfg.x_des with
        | none => (term3, some (LoadError.missingField "x_des"))
        | some xd =>
          let term4 := { term3 with w_p_ref := xd }
          match cfg.quat_des with
          | some qv =>
            ({ term4 with w_R_ref := quatToRotationMatrix ⟨qv 0, qv 1, qv 2, qv 3⟩ }, none)
          | none =>
            match cfg.eulerXyz_des with
            | some e =>
              ({ term4 with w_R_ref := quatToRotationMatrix (eulerXyzToQuat e) }, none)
            | none => (term4, some LoadError.missingOrientation)

/-- Spec-side elementary rotation about the X axis through angle `θ`. -/
def rotX (θ : ℝ) : Mat3 :=
  !![1, 0, 0; 0, Real.cos θ, -Real.sin θ; 0, Real.sin θ, Real.cos θ]

/-- Spec-side elementary rotation about the Y axis through angle `θ`. -/
def rotY (θ : ℝ) : Mat3 :=
  !![Real.cos θ, 0, Real.sin θ; 0, 1, 0; -Real.sin θ, 0, Real.cos θ]

/-- Spec-side elementary rotation about the Z axis through angle `θ`. -/
def rotZ (θ : ℝ) : Mat3 :=
  !![Real.cos θ, -Real.sin θ, 0; Real.sin θ, Real.cos θ, 0; 0, 0, 1]

/-- Spec-side statement of the cost formula (spec section 4.2, steps 1-7):
`positionErrorᵀ · Wpos · positionError + Wrot * ‖referenceRotationᵀ · R − I‖_F`
with the position and rotation supplied by the kinematics provider on the
extracted state. -/
def evaluateSpec {N M : ℕ} (FB : Bool) (term : TermTaskspacePose N)
    (x : Fin (stateDim FB N) → ℝ) (u : Fin M → ℝ) (t : ℝ) : ℝ :=
  let rbdState := setStateFromVector FB x
  let p :=
    term.kinematics.getEEPositionInWorld term.eeInd rbdState.basePose rbdState.jointPositions
  let R :=
    term.kinematics.getEERotInWorld term.eeInd rbdState.basePose rbdState.jointPositions
  let positionError := p - term.w_p_ref
  Matrix.dotProduct positionError (term.Q_pos.mulVec positionError)
    + term.Q_rot * frobeniusNorm (term.w_R_refᵀ * R - 1)

/-- Positive semidefiniteness of the position weight matrix, as the spec states it:
the quadratic form is nonnegative on every vector. -/
def IsPosSemidef (Q : Mat3) : Prop := ∀ v : Vec3, 0 ≤ Matrix.dotProduct v (Q.mulVec v)

/-- The `(0,0)` entry of `rowᵀ · Q · col` is the dot-product quadratic form. -/
theorem quadForm_eq_dotProduct (Q : Mat3) (v : Vec3) :
    quadForm Q v = Matrix.dotProduct v (Q.mulVec v) := by
  simp only [quadForm, Matrix.mul_apply, Matrix.row_apply, Matrix.col_apply,
    Matrix.dotProduct, Matrix.mulVec, Finset.mul_sum, Finset.sum_mul]
  rw [Finset.sum_comm]
  refine Finset.sum_congr rfl fun i _ => Finset.sum_congr rfl fun j _ => by ring

/-- The Frobenius norm is nonnegative. -/
theorem frobeniusNorm_nonneg (M : Mat3) : 0 ≤ frobeniusNorm M :=
  Real.sqrt_nonneg _

/-- The Frobenius norm of the zero matrix vanishes. -/
theorem frobeniusNorm_zero : frobeniusNorm (0 : Mat3) = 0 := by
  simp [frobeniusNorm]

/-- The Frobenius norm vanishes exactly on the zero matrix. -/
theorem frobeniusNorm_eq_zero_iff (M : Mat3) : frobeniusNorm M = 0 ↔ M = 0 := by
  constructor
  · intro h
    rw [frobeniusNorm, Real.sqrt_eq_zero (by positivity)] at h
    ext i j
    have hi := (Finset.sum_eq_zero_iff_of_nonneg
      (fun i _ => Finset.sum_nonneg fun j _ => sq_nonneg (M i j))).mp h i (Finset.mem_univ i)
    have hj := (Finset.sum_eq_zero_iff_of_nonneg
      (fun j _ => sq_nonneg (M i j))).mp hi j (Finset.mem_univ j)
    simpa using pow_eq_zero_iff (two_ne_zero) |>.mp hj
  · intro h
    rw [h]
    exact frobeniusNorm_zero

/-- First-order homogeneity of the Frobenius norm: scaling the matrix scales the
norm linearly (not quadratically). -/
theorem frobeniusNorm_smul (c : ℝ) (M : Mat3) :
    frobeniusNorm (c • M) = |c| * frobeniusNorm M := by
  have h : (∑ i, ∑ j, (c • M) i j ^ 2) = c ^ 2 * ∑ i, ∑ j, M i j ^ 2 := by
    simp only [Matrix.smul_apply, smul_eq_mul, Finset.mul_sum]
    refine Finset.sum_congr rfl fun i _ => Finset.sum_congr rfl fun j _ => by ring
  rw [frobeniusNorm, h, Real.sqrt_mul (sq_nonneg c), Real.sqrt_sq_eq_abs]
  rfl

/-- Second-order homogeneity of the quadratic position cost: scaling the error
vector by `c` scales the cost by `c ^ 2`. -/
theorem quadForm_smul (Q : Mat3) (c : ℝ) (v : Vec3) :
    quadForm Q (c • v) = c ^ 2 * quadForm Q v := by
  rw [quadForm_eq_dotProduct, quadForm_eq_dotProduct]
  simp only [Matrix.dotProduct, Matrix.mulVec, Pi.smul_apply, smul_eq_mul,
    Finset.mul_sum, Finset.sum_mul]
  refine Finset.sum_congr rfl fun i _ => Finset.sum_congr rfl fun j _ => by ring

/-- The quadratic form vanishes on the zero vector. -/
theorem quadForm_zero (Q : Mat3) : quadForm Q (0 : Vec3) = 0 := by
  rw [quadForm_eq_dotProduct]
  simp

/-- The squared norm of a quaternion is nonnegative. -/
theorem Quat.normSq_nonneg (q : Quat) : 0 ≤ q.normSq := by
  unfold Quat.normSq
  positivity

/-- Normalising a unit quaternion leaves it unchanged. -/
theorem Quat.normalized_of_normSq_one {q : Quat} (h : q.normSq = 1) : q.normalized = q := by
  obtain ⟨w, x, y, z⟩ := q
  unfold Quat.normalized
  rw [h, Real.sqrt_one]
  simp

/-- The squared norm is multiplicative over the Hamilton product. -/
theorem Quat.normSq_mul (p q : Quat) : (p.mul q).normSq = p.normSq * q.normSq := by
  unfold Quat.mul Quat.normSq
  ring

/-- Homogeneous variant of the quaternion-to-matrix formula, whose diagonal uses
`w² + x² − y² − z²` (and cyclic) instead of `1 − 2(y² + z²)`; it agrees with
`quatToRotationMatrix` exactly on unit quaternions and is multiplicative as a
polynomial identity. -/
def quatToRotationMatrixHom (q : Quat) : Mat3 :=
  !![q.w ^ 2 + q.x ^ 2 - q.y ^ 2 - q.z ^ 2, 2 * q.x * q.y - 2 * q.w * q.z,
      2 * q.x * q.z + 2 * q.w * q.y;
     2 * q.x * q.y + 2 * q.w * q.z, q.w ^ 2 - q.x ^ 2 + q.y ^ 2 - q.z ^ 2,
      2 * q.y * q.z - 2 * q.w * q.x;
     2 * q.x * q.z - 2 * q.w * q.y, 2 * q.y * q.z + 2 * q.w * q.x,
      q.w ^ 2 - q.x ^ 2 - q.y ^ 2 + q.z ^ 2]

/-- On unit quaternions the Eigen formula agrees with its homogeneous variant. -/
theorem quatToRotationMatrix_eq_hom {q : Quat} (h : q.normSq = 1) :
    quatToRotationMatrix q = quatToRotationMatrixHom q := by
  unfold Quat.normSq at h
  unfold quatToRotationMatrix quatToRotationMatrixHom
  ext i j
  fin_cases i <;> fin_cases j <;> simp <;> linear_combination -h

/-- The homogeneous quaternion-to-matrix map is multiplicative. -/
theorem quatToRotationMatrixHom_mul (p q : Quat) :
    quatToRotationMatrixHom (p.mul q) = quatToRotationMatrixHom p * quatToRotationMatrixHom q := by
  unfold quatToRotationMatrixHom Quat.mul
  rw [Matrix.mul_fin_three]
  ext i j
  fin_cases i <;> fin_cases j <;> simp <;> ring

/-- The angle-axis quaternion about X is a unit quaternion. -/
theorem quatAngleAxisX_normSq (θ : ℝ) : (quatAngleAxisX θ).normSq = 1 := by
  unfold quatAngleAxisX Quat.normSq
  simp only []
  linear_combination Real.sin_sq_add_cos_sq (θ / 2)

/-- The angle-axis quaternion about Y is a unit quaternion. -/
theorem quatAngleAxisY_normSq (θ : ℝ) : (quatAngleAxisY θ).normSq = 1 := by
  unfold quatAngleAxisY Quat.normSq
  simp only []
  linear_combination Real.sin_sq_add_cos_sq (θ / 2)

/-- The angle-axis quaternion about Z is a unit quaternion. -/
theorem quatAngleAxisZ_normSq (θ : ℝ) : (quatAngleAxisZ θ).normSq = 1 := by
  unfold quatAngleAxisZ Quat.normSq
  simp only []
  linear_combination Real.sin_sq_add_cos_sq (θ / 2)

/-- The quaternion of the Euler-XYZ angle-axis product is a unit quaternion. -/
theorem eulerXyzToQuat_normSq (e : Vec3) : (eulerXyzToQuat e).normSq = 1 := by
  unfold eulerXyzToQuat
  rw [Quat.normSq_mul, Quat.normSq_mul, quatAngleAxisX_normSq, quatAngleAxisY_normSq,
    quatAngleAxisZ_normSq]
  norm_num

/-- The angle-axis quaternion about X converts to the elementary rotation `rotX`. -/
theorem quatToRotationMatrix_angleAxisX (θ : ℝ) :
    quatToRotationMatrix (quatAngleAxisX θ) = rotX θ := by
  have h2 : (2 : ℝ) * (θ / 2) = θ := by ring
  have hc := Real.cos_two_mul (θ / 2)
  have hs := Real.sin_two_mul (θ / 2)
  rw [h2] at hc hs
  have hpy := Real.sin_sq_add_cos_sq (θ / 2)
  unfold quatToRotationMatrix quatAngleAxisX rotX
  ext i j
  fin_cases i <;> fin_cases j <;> simp <;>
    first
      | linear_combination -hc - 2 * hpy
      | linear_combination hs
      | linear_combination -hs

/-- The angle-axis quaternion about Y converts to the elementary rotation `rotY`. -/
theorem quatToRotationMatrix_angleAxisY (θ : ℝ) :
    quatToRotationMatrix (quatAngleAxisY θ) = rotY θ := by
  have h2 : (2 : ℝ) * (θ / 2) = θ := by ring
  have hc := Real.cos_two_mul (θ / 2)
  have hs := Real.sin_two_mul (θ / 2)
  rw [h2] at hc hs
  have hpy := Real.sin_sq_add_cos_sq (θ / 2)
  unfold quatToRotationMatrix quatAngleAxisY rotY
  ext i j
  fin_cases i <;> fin_cases j <;> simp <;>
    first
      | linear_combination -hc - 2 * hpy
      | linear_combination hs
      | linear_combination -hs

/-- The angle-axis quaternion about Z converts to the elementary rotation `rotZ`. -/
theorem quatToRotationMatrix_angleAxisZ (θ : ℝ) :
    quatToRotationMatrix (quatAngleAxisZ θ) = rotZ θ := by
  have h2 : (2 : ℝ) * (θ / 2) = θ := by ring
  have hc := Real.cos_two_mul (θ / 2)
  have hs := Real.sin_two_mul (θ / 2)
  rw [h2] at hc hs
  have hpy := Real.sin_sq_add_cos_sq (θ / 2)
  unfold quatToRotationMatrix quatAngleAxisZ rotZ
  ext i j
  fin_cases i <;> fin_cases j <;> simp <;>
    first
      | linear_combination -hc - 2 * hpy
      | linear_combination hs
      | linear_combination -hs

/-- The rotation matrix of the Euler-XYZ quaternion is the matrix product
`rotX · rotY · rotZ`. -/
theorem quatToRotationMatrix_eulerXyz (e : Vec3) :
    quatToRotationMatrix (eulerXyzToQuat e) = rotX (e 0) * rotY (e 1) * rotZ (e 2) := by
  rw [quatToRotationMatrix_eq_hom (eulerXyzToQuat_normSq e)]
  unfold eulerXyzToQuat
  rw [quatToRotationMatrixHom_mul, quatToRotationMatrixHom_mul,
    ← quatToRotationMatrix_eq_hom (quatAngleAxisX_normSq (e 0)),
    ← quatToRotationMatrix_eq_hom (quatAngleAxisY_normSq (e 1)),
    ← quatToRotationMatrix_eq_hom (quatAngleAxisZ_normSq (e 2)),
    quatToRotationMatrix_angleAxisX, quatToRotationMatrix_angleAxisY,
    quatToRotationMatrix_angleAxisZ]

/-- A concrete three-joint fixed-base kinematics used in examples: the world
end-effector position is the joint-position vector itself and the end-effector
rotation is the identity. -/
def kinJoints : Kinematics 3 where
  getEEPositionInWorld := fun _ _ q => q
  getEERotInWorld := fun _ _ _ => 1

/-- The example evaluator of spec section 8: end-effector index 2,
`Wpos = diag(1,1,1)`, `Wrot = 0.5`, reference position `(0,0,1)`, identity
reference orientation. -/
def exampleTerm : TermTaskspacePose 3 where
  eeInd := 2
  kinematics := kinJoints
  Q_pos := 1
  Q_rot := 1 / 2
  w_p_ref := fun i => if i.1 = 2 then 1 else 0
  w_R_ref := 1

/-- A state whose joint positions place the example end-effector at `(0,0,1)`. -/
def exampleStateA : Fin (stateDim false 3) → ℝ := fun k => if k.1 = 2 then 1 else 0

/-- A state whose joint positions place the example end-effector at `(0,0,1.1)`. -/
def exampleStateB : Fin (stateDim false 3) → ℝ := fun k => if k.1 = 2 then 11 / 10 else 0

/-- C1: for every state vector, `evalLocal` returns exactly the spec formula
`positionErrorᵀ · Wpos · positionError + Wrot * ‖referenceRotationᵀ · R − I‖_F`,
where the position error is the kinematics-provided world end-effector position
minus the reference position; moreover the position term is quadratic (degree-two
homogeneous) in the error while the rotation term is built from the plain (not
squared) Frobenius norm, which is first-order (degree-one homogeneous). -/
theorem C1_evalLocal_is_spec_formula {N M : ℕ} (FB : Bool) (term : TermTaskspacePose N)
    (x : Fin (stateDim FB N) → ℝ) (u : Fin M → ℝ) (t : ℝ) :
    evalLocal FB term x u t = evaluateSpec FB term x u t ∧
    (∀ (c : ℝ) (v : Vec3), quadForm term.Q_pos (c • v) = c ^ 2 * quadForm term.Q_pos v) ∧
    (∀ (c : ℝ) (D : Mat3), frobeniusNorm (c • D) = |c| * frobeniusNorm D) := by
  refine ⟨?_, fun c v => quadForm_smul _ c v, fun c D => frobeniusNorm_smul c D⟩
  simp only [evalLocal, evaluateSpec, rotationCost, quadForm_eq_dotProduct]

/-- C4: the two evaluation entry points `evaluate` and `evaluateCppadCg` both
delegate to the single shared `evalLocal` template with no scalar-type-specific
branching, hence they return the same value for identical inputs. -/
theorem C4_entry_points_agree {N M : ℕ} (FB : Bool) (term : TermTaskspacePose N)
    (x : Fin (stateDim FB N) → ℝ) (u : Fin M → ℝ) (t : ℝ) :
    evaluate FB term x u t = evalLocal FB term x u t ∧
    evaluateCppadCg FB term x u t = evalLocal FB term x u t ∧
    evaluate FB term x u t = evaluateCppadCg FB term x u t :=
  ⟨rfl, rfl, rfl⟩

/-- C5: the Euler-XYZ constructor is the quaternion constructor applied to the
quaternion of the composed angle-axis product, and the reference rotation matrix
it stores is exactly the left-to-right matrix product `Rx(roll)·Ry(pitch)·Rz(yaw)`. -/
theorem C5_euler_constructor_matches_quaternion_constructor {N : ℕ} (K0 : Kinematics N)
    (eeInd : ℕ) (Qpos : Mat3) (Qrot : ℝ) (wp : Vec3) (e : Vec3) :
    mkFromEulerXyz K0 eeInd Qpos Qrot wp e =
      mkFromQuaternion K0 eeInd Qpos Qrot wp (eulerXyzToQuat e) ∧
    (mkFromEulerXyz K0 eeInd Qpos Qrot wp e).w_R_ref =
      rotX (e 0) * rotY (e 1) * rotZ (e 2) := by
  refine ⟨rfl, ?_⟩
  show quatToRotationMatrix (eulerXyzToQuat e).normalized = _
  rw [Quat.normalized_of_normSq_one (eulerXyzToQuat_normSq e), quatToRotationMatrix_eulerXyz]

/-- C8: state extraction is fixed by the floating-base flag.  With the flag set,
the leading six entries decode to the base pose and the next `N` entries are the
joint positions; without it, the input is the joint state (its leading `N` entries
the joint positions) and the base pose is the identity. -/
theorem C8_state_extraction {N : ℕ} (x : Fin (stateDim true N) → ℝ)
    (y : Fin (stateDim false N) → ℝ) (h6 : 6 ≤ stateDim true N)
    (hj : 6 + N ≤ stateDim true N) (hf : N ≤ stateDim false N) :
    ((setStateFromVector true x).basePose = fun i => x (Fin.castLE h6 i)) ∧
    ((setStateFromVector true x).jointPositions =
      fun j => x (Fin.castLE hj (Fin.natAdd 6 j))) ∧
    ((setStateFromVector false y).jointPositions = fun j => y (Fin.castLE hf j)) ∧
    ((setStateFromVector false y).basePose = fun _ => 0) :=
  ⟨rfl, rfl, rfl, rfl⟩

/-- A concrete floating-base state vector for three joints. -/
def stateW : Fin (stateDim true 3) → ℝ := fun k => (k.1 : ℝ)

/-- A concrete fixed-base state vector for three joints. -/
def stateWfixed : Fin (stateDim false 3) → ℝ := fun k => (k.1 : ℝ)

/-- Witness for C8 at a concrete pair of three-joint state vectors. -/
theorem C8_state_extraction_witness :
    ((setStateFromVector true stateW).basePose =
      fun i => stateW (Fin.castLE (by decide) i)) ∧
    ((setStateFromVector true stateW).jointPositions =
      fun j => stateW (Fin.castLE (by decide) (Fin.natAdd 6 j))) ∧
    ((setStateFromVector false stateWfixed).jointPositions =
      fun j => stateWfixed (Fin.castLE (by decide) j)) ∧
    ((setStateFromVector false stateWfixed).basePose = fun _ => 0) :=
  C8_state_extraction stateW stateWfixed (by decide) (by decide) (by decide)

/-- C2: with the four required fields present, orientation loading follows the
ordered fallback.  A present (well-formed) quaternion field always wins and is
consumed; with no quaternion field a present Euler field is used; with neither,
loading fails with the missing-orientation error and no default orientation is
substituted (the orientation member keeps its previous value). -/
theorem C2_orientation_fallback {N : ℕ} (term : TermTaskspacePose N) (cfg : ConfigSection)
    (ee : ℕ) (qr : ℝ) (qp : Mat3) (xd : Vec3) (h1 : cfg.eeId = some ee)
    (h2 : cfg.Q_rot = some qr) (h3 : cfg.Q_pos = some qp) (h4 : cfg.x_des = some xd) :
    (∀ qv, cfg.quat_des = some qv →
      (loadConfigFile term cfg).2 = none ∧
      (loadConfigFile term cfg).1.w_R_ref = quatToRotationMatrix ⟨qv 0, qv 1, qv 2, qv 3⟩) ∧
    (∀ e, cfg.quat_des = none → cfg.eulerXyz_des = some e →
      (loadConfigFile term cfg).2 = none ∧
      (loadConfigFile term cfg).1.w_R_ref = quatToRotationMatrix (eulerXyzToQuat e)) ∧
    (cfg.quat_des = none → cfg.eulerXyz_des = none →
      (loadConfigFile term cfg).2 = some LoadError.missingOrientation ∧
      (loadConfigFile term cfg).1.w_R_ref = term.w_R_ref) := by
  refine ⟨fun qv hq => ?_, fun e hq he => ?_, fun hq he => ?_⟩
  · simp [loadConfigFile, h1, h2, h3, h4, hq]
  · simp [loadConfigFile, h1, h2, h3, h4, hq, he]
  · simp [loadConfigFile, h1, h2, h3, h4, hq, he]

/-- A configuration section carrying both orientation representations. -/
def cfgBoth : ConfigSection where
  eeId := some 2
  Q_rot := some 1
  Q_pos := some 1
  x_des := some (fun _ => 0)
  quat_des := some (fun _ => 1)
  eulerXyz_des := some (fun _ => 0)

/-- Witness for C2: on a section carrying both orientation fields the quaternion
wins, loading succeeds, and the stored rotation comes from the quaternion values. -/
theorem C2_orientation_fallback_witness :
    (loadConfigFile exampleTerm cfgBoth).2 = none ∧
    (loadConfigFile exampleTerm cfgBoth).1.w_R_ref = quatToRotationMatrix ⟨1, 1, 1, 1⟩ :=
  (C2_orientation_fallback exampleTerm cfgBoth 2 1 1 (fun _ => 0) rfl rfl rfl rfl).1
    (fun _ => 1) rfl

/-- A configuration section with every required field but no orientation field. -/
def cfgNoOrientation : ConfigSection where
  eeId := some 7
  Q_rot := some 3
  Q_pos := some 0
  x_des := some (fun _ => 5)
  quat_des := none
  eulerXyz_des := none

/-- C10: evaluating the loader at the failing input (all required fields present,
no orientation field).  The call fails with the missing-orientation error, yet the
observable member state after the call has the freshly loaded end-effector index,
weights and reference position combined with the untouched previous orientation:
a partially updated evaluator is observable, contradicting the all-or-nothing
claim (and the "explicitly forbidden" trivial constructor is in fact defined with
an empty body on source line 41). -/
theorem C10_partial_update_observable :
    (loadConfigFile exampleTerm cfgNoOrientation).2 = some LoadError.missingOrientation ∧
    (loadConfigFile exampleTerm cfgNoOrientation).1.eeInd = 7 ∧
    (loadConfigFile exampleTerm cfgNoOrientation).1.Q_rot = 3 ∧
    (loadConfigFile exampleTerm cfgNoOrientation).1.Q_pos = 0 ∧
    ((loadConfigFile exampleTerm cfgNoOrientation).1.w_p_ref = fun _ => 5) ∧
    (loadConfigFile exampleTerm cfgNoOrientation).1.w_R_ref = exampleTerm.w_R_ref ∧
    (loadConfigFile exampleTerm cfgNoOrientation).1 ≠ exampleTerm := by
  refine ⟨rfl, rfl, rfl, rfl, rfl, rfl, fun h => ?_⟩
  have h7 : (7 : ℕ) = 2 := congrArg TermTaskspacePose.eeInd h
  exact absurd h7 (by norm_num)

/-- The example evaluation at the exact reference pose returns zero. -/
theorem evalLocal_exampleA : evalLocal false exampleTerm exampleStateA ![0] 0 = 0 := by
  have hpos : exampleTerm.kinematics.getEEPositionInWorld exampleTerm.eeInd
      (setStateFromVector false exampleStateA).basePose
      (setStateFromVector false exampleStateA).jointPositions - exampleTerm.w_p_ref = 0 := by
    funext i
    simp [exampleTerm, kinJoints, setStateFromVector, RBDState.jointsFromVector, exampleStateA]
  simp only [evalLocal, hpos, quadForm_zero]
  simp [exampleTerm, kinJoints, rotationCost, setStateFromVector, Matrix.transpose_one,
    frobeniusNorm_zero]

/-- The example evaluation displaced to `(0,0,1.1)` returns `0.01`. -/
theorem evalLocal_exampleB : evalLocal false exampleTerm exampleStateB ![0] 0 = 1 / 100 := by
  have hpos : exampleTerm.kinematics.getEEPositionInWorld exampleTerm.eeInd
      (setStateFromVector false exampleStateB).basePose
      (setStateFromVector false exampleStateB).jointPositions - exampleTerm.w_p_ref =
      (fun i => if i.1 = 2 then (1 : ℝ) / 10 else 0) := by
    funext i
    simp only [exampleTerm, kinJoints, setStateFromVector, RBDState.jointsFromVector,
      exampleStateB, Pi.sub_apply]
    by_cases h : i.1 = 2 <;> simp [h] <;> norm_num
  simp only [evalLocal, hpos]
  rw [quadForm_eq_dotProduct]
  simp [exampleTerm, kinJoints, rotationCost, setStateFromVector, Matrix.transpose_one,
    frobeniusNorm_zero, Matrix.dotProduct, Matrix.one_mulVec, Fin.sum_univ_three]
  norm_num

/-- C6: at the exact reference pose (kinematics position equal to the reference
position, kinematics rotation equal to the orthonormal reference rotation) the
cost is zero, for any positive-semidefinite position weight and any nonnegative
rotation weight; and on the spec's concrete example the cost is `0` at `(0,0,1)`
and `0.01` at `(0,0,1.1)`. -/
theorem C6_zero_at_reference_pose {N M : ℕ} (FB : Bool) (term : TermTaskspacePose N)
    (x : Fin (stateDim FB N) → ℝ) (u : Fin M → ℝ) (t : ℝ)
    (hpsd : IsPosSemidef term.Q_pos) (hQrot : 0 ≤ term.Q_rot)
    (hortho : term.w_R_refᵀ * term.w_R_ref = 1)
    (hpos : term.kinematics.getEEPositionInWorld term.eeInd
      (setStateFromVector FB x).basePose (setStateFromVector FB x).jointPositions =
      term.w_p_ref)
    (hrot : term.kinematics.getEERotInWorld term.eeInd
      (setStateFromVector FB x).basePose (setStateFromVector FB x).jointPositions =
      term.w_R_ref) :
    evalLocal FB term x u t = 0 ∧
    evalLocal false exampleTerm exampleStateA ![0] 0 = 0 ∧
    evalLocal false exampleTerm exampleStateB ![0] 0 = 1 / 100 := by
  refine ⟨?_, evalLocal_exampleA, evalLocal_exampleB⟩
  simp only [evalLocal, hpos, hrot, sub_self, quadForm_zero, rotationCost, hortho,
    frobeniusNorm_zero, mul_zero, add_zero]

/-- Witness for C6: the example evaluator at the state whose end-effector pose is
the exact reference pose. -/
theorem C6_zero_at_reference_pose_witness :
    evalLocal false exampleTerm exampleStateA ![0] 0 = 0 ∧
    evalLocal false exampleTerm exampleStateA ![0] 0 = 0 ∧
    evalLocal false exampleTerm exampleStateB ![0] 0 = 1 / 100 :=
  C6_zero_at_reference_pose false exampleTerm exampleStateA ![0] 0
    (fun v => by
      show 0 ≤ Matrix.dotProduct v ((1 : Mat3).mulVec v)
      rw [Matrix.one_mulVec]
      exact Finset.sum_nonneg fun i _ => mul_self_nonneg (v i))
    (show (0 : ℝ) ≤ 1 / 2 by norm_num)
    (show (1 : Mat3)ᵀ * 1 = 1 by rw [Matrix.transpose_one, Matrix.one_mul])
    rfl rfl

/-- C9: the clone copies the end-effector index, both weights, the reference
position and the reference rotation by value, its kinematics member is the freshly
constructed `KINEMATICS()` rather than the source's member, and a clone of a term
whose kinematics member is itself the default-constructed one evaluates to the
same value as its source on identical inputs. -/
theorem C9_clone_independent_copy {N M : ℕ} (K0 : Kinematics N)
    (term : TermTaskspacePose N) (FB : Bool) (x : Fin (stateDim FB N) → ℝ)
    (u : Fin M → ℝ) (t : ℝ) :
    (clone K0 term).eeInd = term.eeInd ∧
    (clone K0 term).Q_pos = term.Q_pos ∧
    (clone K0 term).Q_rot = term.Q_rot ∧
    (clone K0 term).w_p_ref = term.w_p_ref ∧
    (clone K0 term).w_R_ref = term.w_R_ref ∧
    (clone K0 term).kinematics = K0 ∧
    (term.kinematics = K0 → evalLocal FB (clone K0 term) x u t = evalLocal FB term x u t) := by
  refine ⟨rfl, rfl, rfl, rfl, rfl, rfl, fun h => ?_⟩
  have hc : clone K0 term = term := by
    obtain ⟨ee, kin, qp, qr, wpr, wrr⟩ := term
    cases h
    rfl
  rw [hc]

/-- Witness for C9: cloning the example evaluator preserves all parameters and the
evaluation result. -/
theorem C9_clone_independent_copy_witness :
    (clone kinJoints exampleTerm).eeInd = exampleTerm.eeInd ∧
    (clone kinJoints exampleTerm).Q_pos = exampleTerm.Q_pos ∧
    (clone kinJoints exampleTerm).Q_rot = exampleTerm.Q_rot ∧
    (clone kinJoints exampleTerm).w_p_ref = exampleTerm.w_p_ref ∧
    (clone kinJoints exampleTerm).w_R_ref = exampleTerm.w_R_ref ∧
    (clone kinJoints exampleTerm).kinematics = kinJoints ∧
    evalLocal false (clone kinJoints exampleTerm) exampleStateA ![0] 0 =
      evalLocal false exampleTerm exampleStateA ![0] 0 := by
  obtain ⟨a, b, c, d, e, f, g⟩ :=
    C9_clone_independent_copy kinJoints exampleTerm false exampleStateA ![0] (0 : ℝ)
  exact ⟨a, b, c, d, e, f, g rfl⟩

/-- C7 counterexample: with the zero rotation weight (a weight the spec explicitly
admits, `Wrot ≥ 0`) the rotation-cost contribution vanishes at a current rotation
that differs from the reference rotation (a half-turn about Z against the identity
reference), so "equals 0 iff current rotation equals reference rotation" fails as
stated. -/
theorem C7_counterexample :
    rotationCost 0 1 (rotZ Real.pi) = 0 ∧ rotZ Real.pi ≠ (1 : Mat3) := by
  constructor
  · simp [rotationCost]
  · intro h
    have h00 := congrFun (congrFun h 0) 0
    simp [rotZ, Matrix.one_apply, Real.cos_pi] at h00
    norm_num at h00

/-- C7 amended: the rotation-cost contribution is nonnegative whenever the rotation
weight is nonnegative, and for a strictly positive rotation weight and an
orthonormal reference rotation it vanishes exactly when the current rotation equals
the reference rotation. -/
theorem C7_rotation_cost_amended (Q_rot : ℝ) (Rref R : Mat3) :
    (0 ≤ Q_rot → 0 ≤ rotationCost Q_rot Rref R) ∧
    (0 < Q_rot → Rrefᵀ * Rref = 1 → (rotationCost Q_rot Rref R = 0 ↔ R = Rref)) := by
  constructor
  · intro h
    exact mul_nonneg h (frobeniusNorm_nonneg _)
  · intro hpos hortho
    constructor
    · intro h
      simp only [rotationCost] at h
      rcases mul_eq_zero.mp h with h0 | hf
      · exact absurd h0 (ne_of_gt hpos)
      · have hdiff : Rrefᵀ * R - 1 = 0 := (frobeniusNorm_eq_zero_iff _).mp hf
        have h1 : Rrefᵀ * R = 1 := by rwa [sub_eq_zero] at hdiff
        have h2 : Rref * (Rrefᵀ * R) = Rref * 1 := by rw [h1]
        rwa [← Matrix.mul_assoc, Matrix.mul_eq_one_comm.mp hortho, Matrix.one_mul,
          Matrix.mul_one] at h2
    · intro h
      subst h
      simp only [rotationCost]
      rw [hortho, sub_self, frobeniusNorm_zero, mul_zero]

/-- Witness for the amended C7 at the identity data. -/
theorem C7_rotation_cost_amended_witness :
    0 ≤ rotationCost 1 1 1 ∧ (rotationCost 1 1 1 = 0 ↔ (1 : Mat3) = 1) :=
  ⟨(C7_rotation_cost_amended 1 1 1).1 (by norm_num),
    (C7_rotation_cost_amended 1 1 1).2 (by norm_num)
      (by rw [Matrix.transpose_one, Matrix.one_mul])⟩

/-- The trace of the Eigen quaternion-to-matrix conversion. -/
theorem trace_quatToRotationMatrix (p : Quat) :
    Matrix.trace (quatToRotationMatrix p) =
      3 - 4 * p.x ^ 2 - 4 * p.y ^ 2 - 4 * p.z ^ 2 := by
  simp [quatToRotationMatrix, Matrix.trace, Matrix.diag, Fin.sum_univ_three]
  ring

/-- For a non-unit quaternion with a nonzero vector part, converting the
normalised quaternion and converting the raw quaternion give different matrices
(their traces differ). -/
theorem quatToRotationMatrix_normalized_ne {q : Quat} (hn : q.normSq ≠ 1)
    (hv : ¬(q.x = 0 ∧ q.y = 0 ∧ q.z = 0)) :
    quatToRotationMatrix q.normalized ≠ quatToRotationMatrix q := by
  have hx3 : q.x ≠ 0 ∨ q.y ≠ 0 ∨ q.z ≠ 0 := by tauto
  have hv2 : 0 < q.x ^ 2 + q.y ^ 2 + q.z ^ 2 := by
    rcases hx3 with h | h | h
    · have hx2 : 0 < q.x ^ 2 := by positivity
      nlinarith [sq_nonneg q.y, sq_nonneg q.z]
    · have hy2 : 0 < q.y ^ 2 := by positivity
      nlinarith [sq_nonneg q.x, sq_nonneg q.z]
    · have hz2 : 0 < q.z ^ 2 := by positivity
      nlinarith [sq_nonneg q.x, sq_nonneg q.y]
  have hs0 : 0 < q.normSq := by
    unfold Quat.normSq
    nlinarith [sq_nonneg q.w]
  have hsq : Real.sqrt q.normSq ^ 2 = q.normSq := Real.sq_sqrt hs0.le
  have hns : q.normSq ≠ 0 := ne_of_gt hs0
  intro hEq
  have hEqTr := congrArg Matrix.trace hEq
  rw [trace_quatToRotationMatrix, trace_quatToRotationMatrix] at hEqTr
  simp only [Quat.normalized] at hEqTr
  rw [div_pow, div_pow, div_pow, hsq] at hEqTr
  have h4 : (q.x ^ 2 + q.y ^ 2 + q.z ^ 2) / q.normSq = q.x ^ 2 + q.y ^ 2 + q.z ^ 2 := by
    linear_combination (-1 / 4 : ℝ) * hEqTr
  rw [div_eq_iff hns] at h4
  have h5 : (q.x ^ 2 + q.y ^ 2 + q.z ^ 2) * 1 =
      (q.x ^ 2 + q.y ^ 2 + q.z ^ 2) * q.normSq := by linarith
  exact hn (mul_left_cancel₀ (ne_of_gt hv2) h5).symm

/-- A configuration section whose quaternion field carries the non-unit
quaternion `(2, 0, 0, 0)`. -/
def cfgQ2000 : ConfigSection where
  eeId := some 0
  Q_rot := some 1
  Q_pos := some 1
  x_des := some (fun _ => 0)
  quat_des := some ![2, 0, 0, 0]
  eulerXyz_des := none

/-- C3 counterexample: for the non-unit quaternion `(2, 0, 0, 0)` the normalising
explicit-constructor path and the as-is configuration-loading path produce the
SAME reference rotation matrix, refuting "for the same non-unit quaternion the two
paths produce different reference rotation matrices" as a statement about every
non-unit quaternion. -/
theorem C3_counterexample :
    Quat.normSq ⟨2, 0, 0, 0⟩ ≠ 1 ∧
    (mkFromQuaternion kinJoints 0 1 1 (fun _ => 0) ⟨2, 0, 0, 0⟩).w_R_ref =
      (loadConfigFile exampleTerm cfgQ2000).1.w_R_ref := by
  constructor
  · norm_num [Quat.normSq]
  · show quatToRotationMatrix (Quat.normalized ⟨2, 0, 0, 0⟩) =
      quatToRotationMatrix ⟨2, 0, 0, 0⟩
    ext i j
    fin_cases i <;> fin_cases j <;>
      simp [quatToRotationMatrix, Quat.normalized, Quat.normSq]

/-- C3 amended: the explicit-quaternion constructor normalises before building the
reference rotation while the configuration loader consumes the four loaded values
as-is; consequently, for a non-unit quaternion whose vector part is nonzero, the
two paths produce different reference rotation matrices. -/
theorem C3_normalization_asymmetry {N : ℕ} (K0 : Kinematics N) (eeInd ee : ℕ)
    (Qpos qp : Mat3) (Qrot qr : ℝ) (wp xd : Vec3) (term : TermTaskspacePose N)
    (cfg : ConfigSection) (q : Quat) (h1 : cfg.eeId = some ee) (h2 : cfg.Q_rot = some qr)
    (h3 : cfg.Q_pos = some qp) (h4 : cfg.x_des = some xd)
    (hq : cfg.quat_des = some ![q.w, q.x, q.y, q.z]) (hn : q.normSq ≠ 1)
    (hv : ¬(q.x = 0 ∧ q.y = 0 ∧ q.z = 0)) :
    (mkFromQuaternion K0 eeInd Qpos Qrot wp q).w_R_ref =
      quatToRotationMatrix q.normalized ∧
    (loadConfigFile term cfg).1.w_R_ref = quatToRotationMatrix q ∧
    (mkFromQuaternion K0 eeInd Qpos Qrot wp q).w_R_ref ≠
      (loadConfigFile term cfg).1.w_R_ref := by
  have hload : (loadConfigFile term cfg).1.w_R_ref = quatToRotationMatrix q := by
    simp [loadConfigFile, h1, h2, h3, h4, hq]
  refine ⟨rfl, hload, ?_⟩
  rw [hload]
  exact quatToRotationMatrix_normalized_ne hn hv

/-- A configuration section whose quaternion field carries the non-unit
quaternion `(2, 1, 2, 0)` (squared norm 9). -/
def cfgQ212 : ConfigSection where
  eeId := some 0
  Q_rot := some 1
  Q_pos := some 1
  x_des := some (fun _ => 0)
  quat_des := some ![2, 1, 2, 0]
  eulerXyz_des := none

/-- Witness for the amended C3 at the non-unit quaternion `(2, 1, 2, 0)`. -/
theorem C3_normalization_asymmetry_witness :
    (mkFromQuaternion kinJoints 0 1 1 (fun _ => 0) ⟨2, 1, 2, 0⟩).w_R_ref =
      quatToRotationMatrix (Quat.normalized ⟨2, 1, 2, 0⟩) ∧
    (loadConfigFile exampleTerm cfgQ212).1.w_R_ref = quatToRotationMatrix ⟨2, 1, 2, 0⟩ ∧
    (mkFromQuaternion kinJoints 0 1 1 (fun _ => 0) ⟨2, 1, 2, 0⟩).w_R_ref ≠
      (loadConfigFile exampleTerm cfgQ212).1.w_R_ref :=
  C3_normalization_asymmetry kinJoints 0 0 1 1 1 1 (fun _ => 0) (fun _ => 0) exampleTerm
    cfgQ212 ⟨2, 1, 2, 0⟩ rfl rfl rfl rfl rfl (by norm_num [Quat.normSq])
    (fun h => one_ne_zero h.1)

end CT
